import Mathlib

/-!
Verification of the spaced-repetition scheduling engine and its schedule
store (src/src/utils/spacedRepetition.ts and the review-schedule CRUD
module).  Numbers that are JavaScript `number`s carrying real values
(ease factors, multipliers) are modelled as exact rationals (ℚ);
integer-valued quantities (day counts, repetition counts, millisecond
timestamps) as ℤ.  `Math.round` rounds half toward +∞, i.e. ⌊x + 1/2⌋.
Wall-clock reads are threaded as an explicit `now` parameter, one instant
per logical operation.
-/

namespace SpacedRep

/-- Confidence tags of `ConfidenceLevel`; `outro` stands for any
unrecognized tag hitting the `default` branch of the TS switches. -/
inductive ConfidenceLevel
  | certeza
  | duvida
  | chute
  | outro
deriving DecidableEq, Repr

/-- Mastery-tier ("room") tags; `outro` is any unrecognized tag. -/
inductive Room
  | triagem
  | vermelha
  | amarela
  | verde
  | outro
deriving DecidableEq, Repr

/-- Difficulty tags; `outro` is any unrecognized tag. -/
inductive Difficulty
  | easy
  | medium
  | hard
  | outro
deriving DecidableEq, Repr

structure ReviewContext where
  isCorrect : Bool
  confidence : ConfidenceLevel
  room : Room
  difficulty : Difficulty
deriving DecidableEq, Repr

/-- JavaScript `Math.round`: round half toward +∞. -/
def jsRound (x : ℚ) : ℤ := ⌊x + 1/2⌋

/-- `mapQuality` from spacedRepetition.ts. -/
def mapQuality (isCorrect : Bool) (confidence : ConfidenceLevel) : ℤ :=
  if isCorrect then
    match confidence with
    | .certeza => 5
    | .duvida => 4
    | .chute => 3
    | .outro => 4
  else
    if confidence = .certeza then 1 else 2

/-- `getRoomMultiplier` from spacedRepetition.ts. -/
def getRoomMultiplier (room : Room) : ℚ :=
  match room with
  | .triagem => 0.6
  | .vermelha => 0.7
  | .amarela => 0.85
  | .verde => 1.15
  | .outro => 1.0

/-- `getDifficultyMultiplier` from spacedRepetition.ts. -/
def getDifficultyMultiplier (difficulty : Difficulty) : ℚ :=
  match difficulty with
  | .hard => 0.85
  | .easy => 1.1
  | .medium => 1.0
  | .outro => 1.0

/-- `updateEaseFactor` from spacedRepetition.ts. -/
def updateEaseFactor (currentEF : ℚ) (quality : ℤ) : ℚ :=
  let newEF := currentEF + (0.1 - ((5 : ℚ) - quality) * (0.08 + ((5 : ℚ) - quality) * 0.02))
  min 2.6 (max 1.3 newEF)

/-- `calculateBaseInterval` from spacedRepetition.ts. -/
def calculateBaseInterval (repetitions : ℤ) (previousInterval : ℤ)
    (easeFactor : ℚ) (quality : ℤ) : ℤ :=
  if quality < 3 then 1
  else if repetitions = 0 then 1
  else if repetitions = 1 then 6
  else jsRound ((previousInterval : ℚ) * easeFactor)

/-- `applyContextualAdjustments` from spacedRepetition.ts. -/
def applyContextualAdjustments (baseInterval : ℤ) (context : ReviewContext)
    (correctStreak : ℤ) : ℤ :=
  let quality := mapQuality context.isCorrect context.confidence
  let roomMultiplier := getRoomMultiplier context.room
  let difficultyMultiplier := getDifficultyMultiplier context.difficulty
  let adjustedInterval := max 1 (jsRound ((baseInterval : ℚ) * roomMultiplier * difficultyMultiplier))
  if context.isCorrect = true ∧ 4 ≤ quality ∧ 3 ≤ correctStreak then
    jsRound ((adjustedInterval : ℚ) * 1.1)
  else
    adjustedInterval

/-- The four scheduling fields read back from an existing record. -/
structure PreviousSchedule where
  repetitions : ℤ
  intervalDays : ℤ
  easeFactor : ℚ
  correctStreak : ℤ
deriving DecidableEq, Repr

/-- `ReviewScheduleUpdate`: output of `computeNextSchedule`.
`nextReviewAt` is a millisecond timestamp. -/
structure ReviewScheduleUpdate where
  repetitions : ℤ
  intervalDays : ℤ
  easeFactor : ℚ
  nextReviewAt : ℤ
  correctStreak : ℤ
  lastResult : ℤ
deriving DecidableEq, Repr

/-- `computeNextSchedule` from spacedRepetition.ts; `now` is the
millisecond clock reading (`Date.now()`). -/
def computeNextSchedule (previousSchedule : Option PreviousSchedule)
    (context : ReviewContext) (now : ℤ) : ReviewScheduleUpdate :=
  let quality := mapQuality context.isCorrect context.confidence
  let prevReps := (previousSchedule.map (·.repetitions)).getD 0
  let prevInterval := (previousSchedule.map (·.intervalDays)).getD 1
  let prevEF := (previousSchedule.map (·.easeFactor)).getD 2.5
  let prevStreak := (previousSchedule.map (·.correctStreak)).getD 0
  let newEF := updateEaseFactor prevEF quality
  let newRepetitions : ℤ := if quality < 3 then 0 else prevReps + 1
  let baseInterval := calculateBaseInterval newRepetitions prevInterval newEF quality
  let newStreak : ℤ := if context.isCorrect then prevStreak + 1 else 0
  let finalInterval := applyContextualAdjustments baseInterval context newStreak
  let nextReviewAt := now + finalInterval * (24 * 60 * 60 * 1000)
  { repetitions := newRepetitions
    intervalDays := finalInterval
    easeFactor := newEF
    nextReviewAt := nextReviewAt
    correctStreak := newStreak
    lastResult := quality }

/-- `getDaysUntilReview` from spacedRepetition.ts: signed ceiling of the
remaining time in days. -/
def getDaysUntilReview (now nextReviewAt : ℤ) : ℤ :=
  ⌈((nextReviewAt - now : ℤ) : ℚ) / (24 * 60 * 60 * 1000)⌉

inductive UrgencyLevel
  | overdue
  | dueToday
  | dueSoon
  | scheduled
deriving DecidableEq, Repr

/-- `getUrgencyLevel` from spacedRepetition.ts. -/
def getUrgencyLevel (now nextReviewAt : ℤ) : UrgencyLevel :=
  let daysUntil := getDaysUntilReview now nextReviewAt
  if daysUntil < 0 then .overdue
  else if daysUntil = 0 then .dueToday
  else if daysUntil ≤ 2 then .dueSoon
  else .scheduled

/-- The urgency rule as the spec words it: negative → overdue, zero →
due-today, exactly 1 or 2 → due-soon, anything else → scheduled. -/
def urgencyLevelOfDays (daysUntil : ℤ) : UrgencyLevel :=
  if daysUntil < 0 then .overdue
  else if daysUntil = 0 then .dueToday
  else if daysUntil = 1 ∨ daysUntil = 2 then .dueSoon
  else .scheduled

/-! ## Schedule store and due-query layer

The review-schedule CRUD module keeps one row per scheduled item in the
`review_schedules` table (column order: id, item_type, item_id, topic_id,
subject_id, repetitions, interval_days, ease_factor, correct_streak,
last_review, next_review_at, last_result, last_confidence, last_room,
created_at, updated_at).  The table is modelled as a list of rows in
insertion order; a `SELECT` without `ORDER BY` yields the first matching
row, i.e. `List.find?`.  The `study_topics` relation is modelled as the
map `topicSubject` from topic id to its subject id. -/

/-- A persisted `review_schedules` row. -/
structure ReviewScheduleRow where
  id : String
  itemType : String
  itemId : String
  topicId : String
  subjectId : Option String
  repetitions : ℤ
  intervalDays : ℤ
  easeFactor : ℚ
  correctStreak : ℤ
  lastReview : ℤ
  nextReviewAt : ℤ
  lastResult : ℤ
  lastConfidence : ConfidenceLevel
  lastRoom : Room
  createdAt : ℤ
  updatedAt : ℤ
deriving DecidableEq, Repr

/-- The persistent state the CRUD module touches. -/
structure Store where
  schedules : List ReviewScheduleRow
  topicSubject : String → Option String

/-- The fields of a `Question` the CRUD module reads. -/
structure Question where
  id : String
  topicId : String
  subjectName : Option String

/-- The `WHERE item_type = 'question' AND item_id = ?` predicate. -/
def scheduleRowMatches (questionId : String) (r : ReviewScheduleRow) : Bool :=
  r.itemType == "question" && r.itemId == questionId

/-- `getScheduleByQuestionId`: point lookup; first matching row or none. -/
def getScheduleByQuestionId (store : Store) (questionId : String) :
    Option ReviewScheduleRow :=
  store.schedules.find? (scheduleRowMatches questionId)

/-- `upsertQuestionSchedule`: load the existing row for the question,
compute the next schedule, then `UPDATE` or `INSERT`.

The source reads the existing row with `stmt.getAsObject()`, which in
sql.js returns an object keyed by column NAME (the question CRUD in the
same repository reads such rows as `row.topic_id` etc.), and then
indexes it NUMERICALLY: `existing[5]`…`existing[8]`, `existing[0]` and
`existing[14]` are all `undefined` at run time.  Faithful consequences,
modelled below:
* the previous-schedule object handed to `computeNextSchedule` carries
  four `undefined` fields, so the engine's `??` defaults apply exactly
  as for an absent schedule — modelled by passing `none`;
* on the update path `scheduleId` is `undefined`, and the
  `UPDATE … WHERE id = ?` either throws at binding (sql.js rejects
  `undefined`) or, under a lenient binding to NULL, matches no row —
  either way no stored row changes and no schedule object is returned,
  modelled as the unchanged store paired with `none`.

The wall clock is read twice per call: once inside
`computeNextSchedule` (`Date.now()`, here `nowEngine`) and once two
lines later for the record timestamps (`new Date()`, here `nowRecord`).
`freshId` is the id the insert path mints (in the source a string built
from a third clock read and a random suffix).  The insert path works:
it appends the new row (whose `subject_id` comes from the positional
`db.exec` topic lookup, which is correct) and returns the schedule
object, whose own `subjectId` field the source always leaves unset. -/
def upsertQuestionSchedule (store : Store) (question : Question)
    (context : ReviewContext) (nowEngine nowRecord : ℤ) (freshId : String) :
    Store × Option ReviewScheduleRow :=
  let existing := store.schedules.find? (scheduleRowMatches question.id)
  let previousSchedule : Option PreviousSchedule := none
  let nextSchedule := computeNextSchedule previousSchedule context nowEngine
  let subjectId := store.topicSubject question.topicId
  match existing with
  | some _ => (store, none)
  | none =>
      let schedule : ReviewScheduleRow :=
        { id := freshId
          itemType := "question"
          itemId := question.id
          topicId := question.topicId
          subjectId := match question.subjectName with
            | some _ => none
            | none => none
          repetitions := nextSchedule.repetitions
          intervalDays := nextSchedule.intervalDays
          easeFactor := nextSchedule.easeFactor
          correctStreak := nextSchedule.correctStreak
          lastReview := nowRecord
          nextReviewAt := nextSchedule.nextReviewAt
          lastResult := nextSchedule.lastResult
          lastConfidence := context.confidence
          lastRoom := context.room
          createdAt := nowRecord
          updatedAt := nowRecord }
      ({ store with schedules := store.schedules ++ [{ schedule with subjectId := subjectId }] },
        some schedule)

/-! ### `getReviewStats`

The stats query filters due question rows (optionally restricted to the
given subject ids), groups them by `(last_room, subject_id)` with the SQL
aggregates COUNT, AVG(correct_streak), MAX(correct_streak),
MIN(next_review_at) per group, then folds over the group rows exactly as
the JS loop does. -/

/-- The `WHERE` clause of the stats/due queries: question rows due at
`now`, restricted to `subjectIds` when a non-empty list is supplied
(`subject_id IN (...)`; a SQL NULL subject id never matches `IN`). -/
def dueFilter (subjectIds : Option (List String)) (now : ℤ)
    (r : ReviewScheduleRow) : Bool :=
  r.itemType == "question" && decide (r.nextReviewAt ≤ now) &&
    (match subjectIds with
     | none => true
     | some l =>
        if l.isEmpty then true
        else match r.subjectId with
          | some s => l.contains s
          | none => false)

/-- The rows a stats query aggregates. -/
def dueRows (store : Store) (subjectIds : Option (List String)) (now : ℤ) :
    List ReviewScheduleRow :=
  store.schedules.filter (dueFilter subjectIds now)

/-- The `GROUP BY rs.last_room, rs.subject_id` key of a row. -/
def groupKeyOf (r : ReviewScheduleRow) : Room × Option String :=
  (r.lastRoom, r.subjectId)

/-- The distinct group keys of a row list, in order of first appearance. -/
def groupKeys (rows : List ReviewScheduleRow) : List (Room × Option String) :=
  rows.foldl (fun ks r => if groupKeyOf r ∈ ks then ks else ks ++ [groupKeyOf r]) []

/-- One output row of the grouped aggregate query. -/
structure GroupRow where
  dueCount : ℤ
  lastRoom : Room
  subjectId : Option String
  avgStreak : ℚ
  maxStreak : ℤ
  nextReview : ℤ
deriving Repr

/-- The members of one `(last_room, subject_id)` group. -/
def groupMembers (rows : List ReviewScheduleRow) (k : Room × Option String) :
    List ReviewScheduleRow :=
  rows.filter (fun r => groupKeyOf r = k)

/-- The SQL aggregates over one group (groups produced by `groupKeys` are
never empty, so the `getD 0` defaults of MAX/MIN are never exercised). -/
def summarize (rows : List ReviewScheduleRow) (k : Room × Option String) : GroupRow :=
  let members := groupMembers rows k
  { dueCount := members.length
    lastRoom := k.1
    subjectId := k.2
    avgStreak := ((members.map (·.correctStreak)).sum : ℚ) / (members.length : ℚ)
    maxStreak := ((members.map (·.correctStreak)).max?).getD 0
    nextReview := ((members.map (·.nextReviewAt)).min?).getD 0 }

/-- The result rows of the grouped stats query. -/
def groupSummaries (rows : List ReviewScheduleRow) : List GroupRow :=
  (groupKeys rows).map (summarize rows)

/-- The `dueByRoom` object: one bucket per known mastery tier. -/
structure DueByRoom where
  triagem : ℤ
  vermelha : ℤ
  amarela : ℤ
  verde : ℤ
deriving DecidableEq, Repr

structure StreakData where
  averageStreak : ℚ
  longestStreak : ℤ
deriving DecidableEq, Repr

/-- `ReviewStats` as assembled by `getReviewStats`; `dueBySubject` is the
JS object read back with a 0 default. -/
structure ReviewStats where
  totalDue : ℤ
  dueByRoom : DueByRoom
  dueBySubject : String → ℤ
  streakData : StreakData
  nextReviewDate : Option ℤ

/-- `stats.dueByRoom[room] += due` guarded by
`room && stats.dueByRoom[room] !== undefined`: only the four known tier
keys have a bucket; any other tag falls through. -/
def addDueByRoom (d : DueByRoom) (room : Room) (due : ℤ) : DueByRoom :=
  match room with
  | .triagem => { d with triagem := d.triagem + due }
  | .vermelha => { d with vermelha := d.vermelha + due }
  | .amarela => { d with amarela := d.amarela + due }
  | .verde => { d with verde := d.verde + due }
  | .outro => d

/-- Loop state of the JS aggregation loop: the stats object under
construction plus the running `totalStreak` and `count` locals. -/
structure StatsAcc where
  stats : ReviewStats
  totalStreak : ℚ
  count : ℕ

/-- One iteration of the JS `for` loop over the grouped result rows. -/
def statsStep (acc : StatsAcc) (g : GroupRow) : StatsAcc :=
  let stats := acc.stats
  let stats := { stats with totalDue := stats.totalDue + g.dueCount }
  let stats := { stats with dueByRoom := addDueByRoom stats.dueByRoom g.lastRoom g.dueCount }
  let stats := match g.subjectId with
    | some s => { stats with
        dueBySubject := fun x => if x = s then stats.dueBySubject x + g.dueCount
          else stats.dueBySubject x }
    | none => stats
  let stats := if stats.streakData.longestStreak < g.maxStreak then
      { stats with streakData := { stats.streakData with longestStreak := g.maxStreak } }
    else stats
  let stats := match stats.nextReviewDate with
    | none => { stats with nextReviewDate := some g.nextReview }
    | some d => if g.nextReview < d then { stats with nextReviewDate := some g.nextReview }
        else stats
  { stats := stats, totalStreak := acc.totalStreak + g.avgStreak, count := acc.count + 1 }

/-- The zero stats object the source starts from. -/
def initialStatsAcc : StatsAcc :=
  { stats := { totalDue := 0
               dueByRoom := { triagem := 0, vermelha := 0, amarela := 0, verde := 0 }
               dueBySubject := fun _ => 0
               streakData := { averageStreak := 0, longestStreak := 0 }
               nextReviewDate := none }
    totalStreak := 0
    count := 0 }

/-- `getReviewStats` from the CRUD module. -/
def getReviewStats (store : Store) (subjectIds : Option (List String)) (now : ℤ) :
    ReviewStats :=
  let acc := (groupSummaries (dueRows store subjectIds now)).foldl statsStep initialStatsAcc
  if 0 < acc.count then
    { acc.stats with
      streakData := { acc.stats.streakData with averageStreak := acc.totalStreak / (acc.count : ℚ) } }
  else acc.stats

/-! ### Derived descriptions used in statements -/

/-- The row the `INSERT` branch of `upsertQuestionSchedule` persists:
`nextReviewAt` stems from the engine's clock read, the record
timestamps from the later one. -/
def insertedRow (store : Store) (question : Question) (context : ReviewContext)
    (nowEngine nowRecord : ℤ) (freshId : String) : ReviewScheduleRow :=
  let ns := computeNextSchedule none context nowEngine
  { id := freshId
    itemType := "question"
    itemId := question.id
    topicId := question.topicId
    subjectId := store.topicSubject question.topicId
    repetitions := ns.repetitions
    intervalDays := ns.intervalDays
    easeFactor := ns.easeFactor
    correctStreak := ns.correctStreak
    lastReview := nowRecord
    nextReviewAt := ns.nextReviewAt
    lastResult := ns.lastResult
    lastConfidence := context.confidence
    lastRoom := context.room
    createdAt := nowRecord
    updatedAt := nowRecord }

/-- The arithmetic mean of `correctStreak` over a set of rows — the
reading of `averageStreak` under test. -/
def overallMeanStreak (rows : List ReviewScheduleRow) : ℚ :=
  ((rows.map (·.correctStreak)).sum : ℚ) / (rows.length : ℚ)

/-- The unweighted mean of the per-group average streaks. -/
def meanOfGroupAverages (rows : List ReviewScheduleRow) : ℚ :=
  let gs := groupSummaries rows
  if gs.length = 0 then 0 else (gs.map (·.avgStreak)).sum / (gs.length : ℚ)

/-- The sum of the four per-tier due buckets. -/
def roomSum (d : DueByRoom) : ℤ := d.triagem + d.vermelha + d.amarela + d.verde

/-! ### Concrete fixtures for counterexamples and witnesses -/

/-- An existing schedule row for question `q1`. -/
def exampleRow : ReviewScheduleRow :=
  { id := "sch1", itemType := "question", itemId := "q1", topicId := "t1",
    subjectId := some "s1", repetitions := 1, intervalDays := 6, easeFactor := 2.5,
    correctStreak := 1, lastReview := 0, nextReviewAt := 0, lastResult := 4,
    lastConfidence := .duvida, lastRoom := .amarela, createdAt := 0, updatedAt := 0 }

def exampleStore : Store :=
  { schedules := [exampleRow], topicSubject := fun _ => exampleRow.subjectId }

def exampleQuestion : Question :=
  { id := exampleRow.itemId, topicId := exampleRow.topicId, subjectName := none }

def exampleContext : ReviewContext := ⟨true, .certeza, .amarela, .medium⟩

def freshIdA : String := "sched_new_a"

def freshIdB : String := "sched_new_b"

/-- A store with no schedules, for exercising the insert path. -/
def emptyStore : Store := { schedules := [], topicSubject := fun _ => none }

/-- A context for an incorrect, high-confidence attempt (quality 1,
final interval 1 day). -/
def incorrectContext : ReviewContext := ⟨false, .certeza, .vermelha, .hard⟩

/-- Due row fixtures for the stats counterexamples: two due rows in the
(triagem, s1) group with streak 0, one due row in the (verde, s1) group
with streak 3, and one due row with an unrecognized room tag. -/
def cexRowA : ReviewScheduleRow :=
  { id := "ra", itemType := "question", itemId := "qa", topicId := "t1",
    subjectId := some "s1", repetitions := 0, intervalDays := 1, easeFactor := 2.5,
    correctStreak := 0, lastReview := 0, nextReviewAt := 0, lastResult := 4,
    lastConfidence := .duvida, lastRoom := .triagem, createdAt := 0, updatedAt := 0 }

def cexRowB : ReviewScheduleRow :=
  { cexRowA with id := "rb", itemId := "qb" }

def cexRowC : ReviewScheduleRow :=
  { cexRowA with id := "rc", itemId := "qc", lastRoom := .verde, correctStreak := 3 }

def cexRowD : ReviewScheduleRow :=
  { cexRowA with id := "rd", itemId := "qd", lastRoom := .outro, correctStreak := 2 }

/-- Store with uneven group sizes: overall mean streak 1, but the mean of
group averages is 3/2. -/
def cexStatsStore : Store :=
  { schedules := [cexRowA, cexRowB, cexRowC], topicSubject := fun _ => cexRowA.subjectId }

/-- Store with a due row whose room tag is not one of the four tiers. -/
def cexRoomStore : Store :=
  { schedules := [cexRowA, cexRowD], topicSubject := fun _ => cexRowA.subjectId }

/-! ## Theorems -/

lemma jsRound_ge_one {x : ℚ} (h : (1 : ℚ) ≤ x + 1/2) : 1 ≤ jsRound x := by
  unfold jsRound
  exact Int.le_floor.mpr (by exact_mod_cast h)

/-- The contextual adjuster can never emit a value below 1: step 1 takes
a `max` with 1, and the streak bonus multiplies a value already ≥ 1 by
1.1 before rounding. -/
lemma applyContextualAdjustments_ge_one (baseInterval : ℤ) (context : ReviewContext)
    (correctStreak : ℤ) : 1 ≤ applyContextualAdjustments baseInterval context correctStreak := by
  simp only [applyContextualAdjustments]
  split
  · apply jsRound_ge_one
    have h : (1 : ℤ) ≤ max 1 (jsRound ((baseInterval : ℚ) * getRoomMultiplier context.room *
        getDifficultyMultiplier context.difficulty)) := le_max_left _ _
    have h' : (1 : ℚ) ≤ (max 1 (jsRound ((baseInterval : ℚ) * getRoomMultiplier context.room *
        getDifficultyMultiplier context.difficulty)) : ℤ) := by exact_mod_cast h
    linarith
  · exact le_max_left _ _

/-- The interval emitted by the schedule engine is always at least one day. -/
lemma computeNextSchedule_intervalDays_ge_one (prev : Option PreviousSchedule)
    (context : ReviewContext) (now : ℤ) :
    1 ≤ (computeNextSchedule prev context now).intervalDays :=
  applyContextualAdjustments_ge_one _ _ _

lemma computeNextSchedule_nextReviewAt (prev : Option PreviousSchedule)
    (context : ReviewContext) (now : ℤ) :
    (computeNextSchedule prev context now).nextReviewAt =
      now + (computeNextSchedule prev context now).intervalDays * (24 * 60 * 60 * 1000) := rfl

lemma find?_append_of_none {α : Type} (p : α → Bool) {l : List α} (l' : List α)
    (h : l.find? p = none) : (l ++ l').find? p = l'.find? p := by
  induction l with
  | nil => rfl
  | cons a l ih =>
      simp only [List.find?] at h ⊢
      cases hpa : p a with
      | true => rw [hpa] at h; exact absurd h (by simp)
      | false =>
          rw [hpa] at h
          simp only [List.cons_append, List.find?, hpa]
          exact ih h

/-- When an existing row is found, the upsert leaves the store entirely
unchanged: the `UPDATE` is keyed on the undefined `existing[0]`, so it
either throws at binding or matches no row. -/
lemma upsert_store_unchanged_of_existing (store : Store) (question : Question)
    (context : ReviewContext) (nowEngine nowRecord : ℤ) (freshId : String)
    (r : ReviewScheduleRow)
    (h : store.schedules.find? (scheduleRowMatches question.id) = some r) :
    (upsertQuestionSchedule store question context nowEngine nowRecord freshId).1 = store := by
  unfold upsertQuestionSchedule
  rw [h]

/-- After an upsert that found no existing row, the stored schedule of
the question is the freshly inserted row. -/
lemma upsert_stored_of_new (store : Store) (question : Question)
    (context : ReviewContext) (nowEngine nowRecord : ℤ) (freshId : String)
    (h : store.schedules.find? (scheduleRowMatches question.id) = none) :
    getScheduleByQuestionId
        (upsertQuestionSchedule store question context nowEngine nowRecord freshId).1
        question.id = some (insertedRow store question context nowEngine nowRecord freshId) := by
  unfold getScheduleByQuestionId upsertQuestionSchedule
  rw [h]
  simp only
  rw [find?_append_of_none _ _ h]
  simp only [List.find?, scheduleRowMatches]
  norm_num [insertedRow]

lemma statsStep_totalStreak (acc : StatsAcc) (g : GroupRow) :
    (statsStep acc g).totalStreak = acc.totalStreak + g.avgStreak := rfl

lemma statsStep_count (acc : StatsAcc) (g : GroupRow) :
    (statsStep acc g).count = acc.count + 1 := rfl

lemma statsStep_averageStreak (acc : StatsAcc) (g : GroupRow) :
    (statsStep acc g).stats.streakData.averageStreak =
      acc.stats.streakData.averageStreak := by
  unfold statsStep
  cases g.subjectId <;> dsimp only <;> (repeat' split) <;> rfl

lemma statsStep_totalDue (acc : StatsAcc) (g : GroupRow) :
    (statsStep acc g).stats.totalDue = acc.stats.totalDue + g.dueCount := by
  unfold statsStep
  cases g.subjectId <;> dsimp only <;> (repeat' split) <;> rfl

lemma statsStep_dueByRoom (acc : StatsAcc) (g : GroupRow) :
    (statsStep acc g).stats.dueByRoom =
      addDueByRoom acc.stats.dueByRoom g.lastRoom g.dueCount := by
  unfold statsStep
  cases g.subjectId <;> dsimp only <;> (repeat' split) <;> rfl

lemma foldl_statsStep_totalStreak :
    ∀ (l : List GroupRow) (acc : StatsAcc),
      (l.foldl statsStep acc).totalStreak = acc.totalStreak + (l.map (·.avgStreak)).sum := by
  intro l
  induction l with
  | nil => intro acc; simp
  | cons g l ih =>
      intro acc
      simp only [List.foldl_cons, List.map_cons, List.sum_cons]
      rw [ih, statsStep_totalStreak]
      ring

lemma foldl_statsStep_count :
    ∀ (l : List GroupRow) (acc : StatsAcc),
      (l.foldl statsStep acc).count = acc.count + l.length := by
  intro l
  induction l with
  | nil => intro acc; simp
  | cons g l ih =>
      intro acc
      simp only [List.foldl_cons, List.length_cons]
      rw [ih, statsStep_count]
      omega

lemma foldl_statsStep_averageStreak :
    ∀ (l : List GroupRow) (acc : StatsAcc),
      (l.foldl statsStep acc).stats.streakData.averageStreak =
        acc.stats.streakData.averageStreak := by
  intro l
  induction l with
  | nil => intro acc; rfl
  | cons g l ih =>
      intro acc
      simp only [List.foldl_cons]
      rw [ih, statsStep_averageStreak]

lemma roomSum_addDueByRoom (d : DueByRoom) (room : Room) (due : ℤ) (hdue : 0 ≤ due) :
    roomSum (addDueByRoom d room due) ≤ roomSum d + due := by
  cases room <;> simp [addDueByRoom, roomSum] <;> linarith

lemma foldl_statsStep_roomSum :
    ∀ (l : List GroupRow) (acc : StatsAcc), (∀ g ∈ l, 0 ≤ g.dueCount) →
      roomSum (l.foldl statsStep acc).stats.dueByRoom - (l.foldl statsStep acc).stats.totalDue ≤
        roomSum acc.stats.dueByRoom - acc.stats.totalDue := by
  intro l
  induction l with
  | nil => intro acc _; simp
  | cons g l ih =>
      intro acc hge
      simp only [List.foldl_cons]
      have hstep : roomSum (statsStep acc g).stats.dueByRoom - (statsStep acc g).stats.totalDue ≤
          roomSum acc.stats.dueByRoom - acc.stats.totalDue := by
        rw [statsStep_dueByRoom, statsStep_totalDue]
        have := roomSum_addDueByRoom acc.stats.dueByRoom g.lastRoom g.dueCount
          (hge g (List.mem_cons_self g l))
        linarith
      have htail := ih (statsStep acc g) (fun x hx => hge x (List.mem_cons_of_mem g hx))
      linarith

lemma groupSummaries_dueCount_nonneg (rows : List ReviewScheduleRow) :
    ∀ g ∈ groupSummaries rows, 0 ≤ g.dueCount := by
  intro g hg
  obtain ⟨k, _, rfl⟩ := List.mem_map.mp hg
  simp only [summarize]
  exact Int.natCast_nonneg _

/-! ### Claims -/

/-- Claim C1: on previous schedule {repetitions=2, intervalDays=10,
easeFactor=2.0, correctStreak=4} and context {correct, certainty,
mastered (verde), easy}, `computeNextSchedule` returns quality 5, ease
factor 2.1, repetitions 3, streak 5, interval 30 days, and next review
now + 30 days. -/
theorem scenarioB_computeNextSchedule (now : ℤ) :
    computeNextSchedule (some ⟨2, 10, 2, 4⟩) ⟨true, .certeza, .verde, .easy⟩ now =
      { repetitions := 3, intervalDays := 30, easeFactor := 2.1,
        nextReviewAt := now + 30 * (24 * 60 * 60 * 1000), correctStreak := 5,
        lastResult := 5 } := by
  unfold computeNextSchedule
  norm_num [mapQuality, updateEaseFactor, calculateBaseInterval, applyContextualAdjustments,
    getRoomMultiplier, getDifficultyMultiplier, jsRound]

/-- Claim C2: whenever the mapped quality is below 3, `computeNextSchedule`
resets repetitions to 0 and produces a final interval of exactly 1 day,
for every previous schedule — the tier and difficulty multipliers never
move the reset interval away from 1. -/
theorem quality_below_three_resets (prev : Option PreviousSchedule)
    (context : ReviewContext) (now : ℤ)
    (h : mapQuality context.isCorrect context.confidence < 3) :
    (computeNextSchedule prev context now).repetitions = 0 ∧
      (computeNextSchedule prev context now).intervalDays = 1 := by
  obtain ⟨ic, conf, room, diff⟩ := context
  cases ic
  · simp only [computeNextSchedule, calculateBaseInterval, applyContextualAdjustments, h,
      if_pos, if_true, Bool.false_eq_true, if_false]
    cases conf <;> cases room <;> cases diff <;>
      simp_all [mapQuality] <;>
      norm_num [jsRound, getRoomMultiplier, getDifficultyMultiplier]
  · cases conf <;> simp [mapQuality] at h

theorem quality_below_three_resets_witness :
    mapQuality (ReviewContext.mk false .certeza .vermelha .hard).isCorrect
        (ReviewContext.mk false .certeza .vermelha .hard).confidence < 3 ∧
      ((computeNextSchedule (some ⟨5, 40, 2.3, 9⟩) ⟨false, .certeza, .vermelha, .hard⟩ 0).repetitions = 0 ∧
        (computeNextSchedule (some ⟨5, 40, 2.3, 9⟩) ⟨false, .certeza, .vermelha, .hard⟩ 0).intervalDays = 1) :=
  ⟨by decide, quality_below_three_resets (some ⟨5, 40, 2.3, 9⟩)
    ⟨false, .certeza, .vermelha, .hard⟩ 0 (by decide)⟩

/-- Claim C3: for quality in {1..5} and a current ease factor inside
[1.3, 2.6], `updateEaseFactor` stays inside [1.3, 2.6] (the clamp
saturates; it never wraps). -/
theorem updateEaseFactor_bounded (quality : ℤ) (ef : ℚ) (hq1 : 1 ≤ quality)
    (hq5 : quality ≤ 5) (hlo : 1.3 ≤ ef) (hhi : ef ≤ 2.6) :
    1.3 ≤ updateEaseFactor ef quality ∧ updateEaseFactor ef quality ≤ 2.6 := by
  unfold updateEaseFactor
  refine ⟨le_min (by norm_num) (le_max_left _ _), min_le_left _ _⟩

theorem updateEaseFactor_bounded_witness :
    ((1 : ℤ) ≤ 5 ∧ (5 : ℤ) ≤ 5 ∧ (1.3 : ℚ) ≤ 2 ∧ (2 : ℚ) ≤ 2.6) ∧
      (1.3 ≤ updateEaseFactor 2 5 ∧ updateEaseFactor 2 5 ≤ 2.6) :=
  ⟨⟨by norm_num, by norm_num, by norm_num, by norm_num⟩,
    updateEaseFactor_bounded 5 2 (by norm_num) (by norm_num) (by norm_num) (by norm_num)⟩

/-- Claim C4: for every base interval ≥ 1, every context and every streak,
the contextual adjuster returns at least 1, streak-bonus path included. -/
theorem applyContextualAdjustments_min_one (baseInterval : ℤ) (context : ReviewContext)
    (correctStreak : ℤ) (h : 1 ≤ baseInterval) :
    1 ≤ applyContextualAdjustments baseInterval context correctStreak :=
  applyContextualAdjustments_ge_one baseInterval context correctStreak

theorem applyContextualAdjustments_min_one_witness :
    (1 : ℤ) ≤ 10 ∧ 1 ≤ applyContextualAdjustments 10 ⟨true, .certeza, .verde, .easy⟩ 4 :=
  ⟨by norm_num,
    applyContextualAdjustments_min_one 10 ⟨true, .certeza, .verde, .easy⟩ 4 (by norm_num)⟩

/-- Claim C5: `getUrgencyLevel` classifies the ceiling day count exactly
as the spec words it: negative → overdue, zero → due-today, one or two →
due-soon, anything else → scheduled. -/
theorem getUrgencyLevel_matches_spec (now nextReviewAt : ℤ) :
    getUrgencyLevel now nextReviewAt = urgencyLevelOfDays (getDaysUntilReview now nextReviewAt) := by
  simp only [getUrgencyLevel, urgencyLevelOfDays]
  generalize getDaysUntilReview now nextReviewAt = d
  split_ifs <;> first | rfl | omega

/-- Claim C6: retrying the same logical attempt (same question, same
context, arbitrary clock readings and fresh ids) leaves the stored
schedules in exactly the state one call produces — nothing is
double-counted.  This holds because the update path never persists: the
`UPDATE` is keyed on the undefined numeric read `existing[0]` of the
name-keyed `getAsObject()` row, so the retry (which always finds the
row the first call inserted or found) changes no stored row. -/
theorem upsert_retry_leaves_store_unchanged (store : Store) (question : Question)
    (context : ReviewContext) (n1 n2 n3 n4 : ℤ) (freshId1 freshId2 : String) :
    (upsertQuestionSchedule (upsertQuestionSchedule store question context n1 n2 freshId1).1
        question context n3 n4 freshId2).1 =
      (upsertQuestionSchedule store question context n1 n2 freshId1).1 := by
  cases hex : store.schedules.find? (scheduleRowMatches question.id) with
  | some r =>
      have h1 := upsert_store_unchanged_of_existing store question context n1 n2 freshId1 r hex
      rw [h1]
      exact upsert_store_unchanged_of_existing store question context n3 n4 freshId2 r hex
  | none =>
      exact upsert_store_unchanged_of_existing _ question context n3 n4 freshId2 _
        (upsert_stored_of_new store question context n1 n2 freshId1 hex)

/-- Claim C7 counterexample: with two due rows of streak 0 in one
(room, subject) group and one due row of streak 3 in another,
`getReviewStats` reports averageStreak 3/2 — the mean of the two group
averages — while the arithmetic mean of correctStreak over the three due
schedules is 1. -/
theorem getReviewStats_averageStreak_cex :
    (getReviewStats cexStatsStore none 0).streakData.averageStreak ≠
      overallMeanStreak (dueRows cexStatsStore none 0) := by
  norm_num +decide [getReviewStats, overallMeanStreak, dueRows, dueFilter, groupSummaries,
    groupKeys, groupKeyOf, groupMembers, summarize, statsStep, initialStatsAcc, addDueByRoom,
    cexStatsStore, cexRowA, cexRowB, cexRowC, List.filter, List.foldl]

/-- Claim C7 amended: `getReviewStats` reports as averageStreak the
unweighted mean of the per-(lastRoom, subjectId)-group average streaks
over the due schedules (0 when there are none), which agrees with the
overall arithmetic mean only when the groups have equal sizes. -/
theorem getReviewStats_averageStreak_eq_group_mean (store : Store)
    (subjectIds : Option (List String)) (now : ℤ) :
    (getReviewStats store subjectIds now).streakData.averageStreak =
      meanOfGroupAverages (dueRows store subjectIds now) := by
  unfold getReviewStats meanOfGroupAverages
  have hts := foldl_statsStep_totalStreak (groupSummaries (dueRows store subjectIds now))
    initialStatsAcc
  have hc := foldl_statsStep_count (groupSummaries (dueRows store subjectIds now))
    initialStatsAcc
  have ha := foldl_statsStep_averageStreak (groupSummaries (dueRows store subjectIds now))
    initialStatsAcc
  have h0c : initialStatsAcc.count = 0 := rfl
  have h0t : initialStatsAcc.totalStreak = 0 := rfl
  have h0a : initialStatsAcc.stats.streakData.averageStreak = 0 := rfl
  dsimp only
  split
  · next hpos =>
      rw [hc, h0c] at hpos
      rw [if_neg (by omega)]
      rw [hts, hc, h0c, h0t]
      norm_num
  · next hzero =>
      rw [hc, h0c] at hzero
      rw [if_pos (by omega)]
      rw [ha, h0a]

/-- Claim C8 counterexample: the source reads the wall clock twice
(`Date.now()` inside the engine at line 52, `new Date()` for the record
timestamps at line 54).  If the second read lands one millisecond after
the first, an incorrect attempt at an empty store (final interval 1 day)
persists a record with nextReviewAt = engine read + 1 day but
lastReview = engine read + 1 ms, so nextReviewAt < lastReview + 1 day
— the claimed invariant fails. -/
theorem upsert_clock_skew_cex :
    ∃ r, getScheduleByQuestionId
        (upsertQuestionSchedule emptyStore exampleQuestion incorrectContext 0 1 freshIdA).1
        exampleQuestion.id = some r ∧
      r.nextReviewAt < r.lastReview + 24 * 60 * 60 * 1000 := by
  refine ⟨insertedRow emptyStore exampleQuestion incorrectContext 0 1 freshIdA,
    upsert_stored_of_new emptyStore exampleQuestion incorrectContext 0 1 freshIdA rfl, ?_⟩
  norm_num [insertedRow, computeNextSchedule, mapQuality, updateEaseFactor,
    calculateBaseInterval, applyContextualAdjustments, getRoomMultiplier,
    getDifficultyMultiplier, jsRound, incorrectContext]

/-- Claim C8 amended: only the insert path ever persists a record (the
update path writes nothing), and an inserted record has
nextReviewAt = engine clock read + intervalDays·1 day with
intervalDays ≥ 1 while lastReview is the later record clock read; so
whenever the two reads of the operation return the same instant, the
stored nextReviewAt is at least the stored lastReview plus one day. -/
theorem upsert_insert_nextReviewAt_bound (store : Store) (question : Question)
    (context : ReviewContext) (now : ℤ) (freshId : String)
    (h : store.schedules.find? (scheduleRowMatches question.id) = none) :
    ∃ r, getScheduleByQuestionId
        (upsertQuestionSchedule store question context now now freshId).1
        question.id = some r ∧ r.lastReview + 24 * 60 * 60 * 1000 ≤ r.nextReviewAt := by
  refine ⟨insertedRow store question context now now freshId,
    upsert_stored_of_new store question context now now freshId h, ?_⟩
  have key : now + 24 * 60 * 60 * 1000 ≤ (computeNextSchedule none context now).nextReviewAt := by
    rw [computeNextSchedule_nextReviewAt]
    have h1 := computeNextSchedule_intervalDays_ge_one none context now
    nlinarith
  simpa [insertedRow] using key

theorem upsert_insert_nextReviewAt_bound_witness :
    emptyStore.schedules.find? (scheduleRowMatches exampleQuestion.id) = none ∧
      ∃ r, getScheduleByQuestionId
          (upsertQuestionSchedule emptyStore exampleQuestion exampleContext 300 300 freshIdB).1
          exampleQuestion.id = some r ∧
        r.lastReview + 24 * 60 * 60 * 1000 ≤ r.nextReviewAt :=
  ⟨rfl, upsert_insert_nextReviewAt_bound emptyStore exampleQuestion exampleContext 300
    freshIdB rfl⟩

/-- Claim C9 counterexample: the scheduling fields the claim says are
modified are in fact not touched.  On a store holding a schedule with
repetitions 1 and updatedAt 0, an upsert of a correct attempt at time
100 leaves the stored repetitions at 1 and the stored updatedAt at 0 —
the `UPDATE` binds the undefined `existing[0]` as its key and never
lands. -/
theorem upsert_update_writes_nothing_cex :
    (getScheduleByQuestionId
        (upsertQuestionSchedule exampleStore exampleQuestion exampleContext 100 100 freshIdA).1
        exampleQuestion.id).map (·.repetitions) = some exampleRow.repetitions ∧
      (getScheduleByQuestionId
        (upsertQuestionSchedule exampleStore exampleQuestion exampleContext 100 100 freshIdA).1
        exampleQuestion.id).map (·.updatedAt) = some exampleRow.updatedAt ∧
      exampleRow.updatedAt ≠ (100 : ℤ) := by
  have h := upsert_store_unchanged_of_existing exampleStore exampleQuestion exampleContext
    100 100 freshIdA exampleRow rfl
  rw [h]
  refine ⟨rfl, rfl, by norm_num [exampleRow]⟩

/-- Claim C9 amended: when the question already has a stored schedule,
the upsert leaves the stored record ENTIRELY unchanged — id, itemType,
itemId, topicId and createdAt as the claim states, but also every
scheduling field, because the in-place `UPDATE` runs against an
undefined id and persists nothing. -/
theorem upsert_existing_record_unchanged (store : Store) (question : Question)
    (context : ReviewContext) (nowEngine nowRecord : ℤ) (freshId : String)
    (r : ReviewScheduleRow)
    (h : getScheduleByQuestionId store question.id = some r) :
    getScheduleByQuestionId
        (upsertQuestionSchedule store question context nowEngine nowRecord freshId).1
        question.id = some r := by
  rw [upsert_store_unchanged_of_existing store question context nowEngine nowRecord freshId r h]
  exact h

theorem upsert_existing_record_unchanged_witness :
    getScheduleByQuestionId exampleStore exampleQuestion.id = some exampleRow ∧
      getScheduleByQuestionId
          (upsertQuestionSchedule exampleStore exampleQuestion exampleContext 100 101 freshIdA).1
          exampleQuestion.id = some exampleRow :=
  ⟨rfl, upsert_existing_record_unchanged exampleStore exampleQuestion exampleContext 100 101
    freshIdA exampleRow rfl⟩

/-- Claim C10: in every `getReviewStats` result the four dueByRoom counts
sum to at most totalDue, and the bound can be strict: a due schedule with
an unrecognized room tag (see `cexRoomStore`) is counted in totalDue but
lands in no per-tier bucket. -/
theorem dueByRoom_sum_le_totalDue :
    (∀ (store : Store) (subjectIds : Option (List String)) (now : ℤ),
        roomSum (getReviewStats store subjectIds now).dueByRoom ≤
          (getReviewStats store subjectIds now).totalDue) ∧
      roomSum (getReviewStats cexRoomStore none 0).dueByRoom <
        (getReviewStats cexRoomStore none 0).totalDue := by
  constructor
  · intro store subjectIds now
    unfold getReviewStats
    have h := foldl_statsStep_roomSum (groupSummaries (dueRows store subjectIds now))
      initialStatsAcc (groupSummaries_dueCount_nonneg _)
    have h0r : roomSum initialStatsAcc.stats.dueByRoom = 0 := rfl
    have h0t : initialStatsAcc.stats.totalDue = 0 := rfl
    rw [h0r, h0t] at h
    dsimp only
    split
    · simpa using h
    · simpa using h
  · norm_num +decide [getReviewStats, dueRows, dueFilter, groupSummaries, groupKeys,
      groupKeyOf, groupMembers, summarize, statsStep, initialStatsAcc, addDueByRoom, roomSum,
      cexRoomStore, cexRowA, cexRowD, List.filter, List.foldl]

end SpacedRep
